import Mathlib

set_option maxRecDepth 8000

/-!
Verification of the cache store of intake-erddap (src/intake_erddap/cache.py).

The development shallowly embeds the CacheStore class and its collaborators:
the filesystem (files keyed by path, with content bytes and an mtime),
directories, the wall clock, and the pluggable HTTP capability are an explicit
world state threaded through each operation.  Timestamps and the configured
cache period are rationals; bytes are naturals below 256; hashing is a full
executable SHA-256 matching the standard that the hashlib library implements.
-/

/-! ### Bytes and 32-bit arithmetic -/

abbrev Bytes := List Nat

def w32 : Nat := 2 ^ 32

/-- Rotate a 32-bit word right by n bits. -/
def rotr32 (n x : Nat) : Nat := ((x >>> n) ||| (x <<< (32 - n))) % w32

/-- Big-endian byte serialization of x into n bytes. -/
def beBytes (n x : Nat) : Bytes :=
  (List.range n).map (fun i => (x >>> (8 * (n - 1 - i))) % 256)

/-! ### SHA-256 (the hash behind hashlib.sha256) -/

def shaK : List Nat :=
  [1116352408, 1899447441, 3049323471, 3921009573, 961987163,
   1508970993, 2453635748, 2870763221, 3624381080, 310598401,
   607225278, 1426881987, 1925078388, 2162078206, 2614888103,
   3248222580, 3835390401, 4022224774, 264347078, 604807628,
   770255983, 1249150122, 1555081692, 1996064986, 2554220882,
   2821834349, 2952996808, 3210313671, 3336571891, 3584528711,
   113926993, 338241895, 666307205, 773529912, 1294757372,
   1396182291, 1695183700, 1986661051, 2177026350, 2456956037,
   2730485921, 2820302411, 3259730800, 3345764771, 3516065817,
   3600352804, 4094571909, 275423344, 430227734, 506948616,
   659060556, 883997877, 958139571, 1322822218, 1537002063,
   1747873779, 1955562222, 2024104815, 2227730452, 2361852424,
   2428436474, 2756734187, 3204031479, 3329325298]

structure Sha256State where
  a : Nat
  b : Nat
  c : Nat
  d : Nat
  e : Nat
  f : Nat
  g : Nat
  h : Nat

def shaH0 : Sha256State :=
  ⟨1779033703, 3144134277, 1013904242, 2773480762,
   1359893119, 2600822924, 528734635, 1541459225⟩

/-- Group bytes into big-endian 32-bit words. -/
def bytesToWords : Bytes → List Nat
  | b0 :: b1 :: b2 :: b3 :: rest =>
      (b0 * 2 ^ 24 + b1 * 2 ^ 16 + b2 * 2 ^ 8 + b3) :: bytesToWords rest
  | _ => []

/-- Extend the 16 message-schedule words of a chunk to 64. -/
def extendSchedule (ws0 : List Nat) : List Nat :=
  (List.range 48).foldl
    (fun ws _ =>
      let n := ws.length
      let x15 := ws.getD (n - 15) 0
      let x2 := ws.getD (n - 2) 0
      let s0 := rotr32 7 x15 ^^^ rotr32 18 x15 ^^^ (x15 >>> 3)
      let s1 := rotr32 17 x2 ^^^ rotr32 19 x2 ^^^ (x2 >>> 10)
      ws ++ [(ws.getD (n - 16) 0 + s0 + ws.getD (n - 7) 0 + s1) % w32])
    ws0

/-- One round of the SHA-256 compression function. -/
def shaRound (st : Sha256State) (k w : Nat) : Sha256State :=
  let bigS1 := rotr32 6 st.e ^^^ rotr32 11 st.e ^^^ rotr32 25 st.e
  let ch := (st.e &&& st.f) ^^^ (((w32 - 1) ^^^ st.e) &&& st.g)
  let temp1 := (st.h + bigS1 + ch + k + w) % w32
  let bigS0 := rotr32 2 st.a ^^^ rotr32 13 st.a ^^^ rotr32 22 st.a
  let maj := (st.a &&& st.b) ^^^ (st.a &&& st.c) ^^^ (st.b &&& st.c)
  let temp2 := (bigS0 + maj) % w32
  ⟨(temp1 + temp2) % w32, st.a, st.b, st.c, (st.d + temp1) % w32, st.e, st.f, st.g⟩

/-- Compress one 64-byte chunk into the running hash state. -/
def shaCompress (st : Sha256State) (chunk : Bytes) : Sha256State :=
  let ws := extendSchedule (bytesToWords chunk)
  let r := (shaK.zip ws).foldl (fun acc kw => shaRound acc kw.1 kw.2) st
  ⟨(st.a + r.a) % w32, (st.b + r.b) % w32, (st.c + r.c) % w32, (st.d + r.d) % w32,
   (st.e + r.e) % w32, (st.f + r.f) % w32, (st.g + r.g) % w32, (st.h + r.h) % w32⟩

/-- SHA-256 padding: append 0x80, zeros, and the 64-bit big-endian bit length. -/
def sha256Pad (msg : Bytes) : Bytes :=
  let len := msg.length
  let zeros := (64 - (len + 9) % 64) % 64
  msg ++ [0x80] ++ List.replicate zeros 0 ++ beBytes 8 (len * 8)

/-- Split the first 64*k bytes of a byte string into 64-byte chunks. -/
def chunksN : Nat → Bytes → List Bytes
  | 0, _ => []
  | k + 1, bs => bs.take 64 :: chunksN k (bs.drop 64)

/-- Split a byte string into 64-byte chunks. -/
def chunks64 (bs : Bytes) : List Bytes := chunksN ((bs.length + 63) / 64) bs

/-- Serialize the final hash state as 32 bytes. -/
def stateBytes (st : Sha256State) : Bytes :=
  beBytes 4 st.a ++ beBytes 4 st.b ++ beBytes 4 st.c ++ beBytes 4 st.d ++
  beBytes 4 st.e ++ beBytes 4 st.f ++ beBytes 4 st.g ++ beBytes 4 st.h

/-- The SHA-256 digest (32 bytes) of a byte string. -/
def sha256 (msg : Bytes) : Bytes :=
  stateBytes ((chunks64 (sha256Pad msg)).foldl shaCompress shaH0)

/-! ### Hex encoding (hexdigest) and UTF-8 encoding -/

def hexDigitChars : List Char := "0123456789abcdef".data

def hexChar (n : Nat) : Char := hexDigitChars.getD n 'x'

def byteToHex (b : Nat) : List Char := [hexChar (b / 16 % 16), hexChar (b % 16)]

/-- Lowercase hexadecimal rendering of a byte string, as hexdigest produces. -/
def hexDigest (bs : Bytes) : String := ⟨bs.flatMap byteToHex⟩

/-- UTF-8 encoding of one character (code point). -/
def utf8EncodeChar (c : Char) : Bytes :=
  let n := c.toNat
  if n < 0x80 then [n]
  else if n < 0x800 then
    [0xC0 ||| (n >>> 6), 0x80 ||| (n &&& 0x3F)]
  else if n < 0x10000 then
    [0xE0 ||| (n >>> 12), 0x80 ||| ((n >>> 6) &&& 0x3F), 0x80 ||| (n &&& 0x3F)]
  else
    [0xF0 ||| (n >>> 18), 0x80 ||| ((n >>> 12) &&& 0x3F),
     0x80 ||| ((n >>> 6) &&& 0x3F), 0x80 ||| (n &&& 0x3F)]

/-- UTF-8 encoding of a string, as str.encode produces. -/
def utf8Encode (s : String) : Bytes := s.data.flatMap utf8EncodeChar

/-! ### Paths

Paths are plain strings; the name of a path is its segment after the last
slash and the parent is everything before it. -/

def pathName (p : String) : String :=
  ⟨(p.data.reverse.takeWhile (· != '/')).reverse⟩

def pathParent (p : String) : String :=
  ⟨((p.data.reverse.dropWhile (· != '/')).reverse).dropLast⟩

/-- The directory itself and its proper ancestor paths, as created by mkdir
with parents enabled. -/
def ancestors (p : String) : List String :=
  let parts := p.splitOn "/"
  p :: (List.range (parts.length - 1)).map
    (fun i => String.intercalate "/" (parts.take (i + 1)))

/-! ### The world: filesystem, clock, HTTP capability -/

structure FileData where
  content : Bytes
  mtime : Rat
deriving DecidableEq

/-- Lookup a file entry by path. -/
def fsGet (fs : List (String × FileData)) (p : String) : Option FileData :=
  match fs with
  | [] => none
  | (q, fd) :: rest => if q = p then some fd else fsGet rest p

/-- Create or overwrite a file entry. -/
def fsSet (fs : List (String × FileData)) (p : String) (fd : FileData) :
    List (String × FileData) :=
  match fs with
  | [] => [(p, fd)]
  | (q, fd0) :: rest => if q = p then (p, fd) :: rest else (q, fd0) :: fsSet rest p fd

structure HttpResponse where
  status : Nat
  content : Bytes

abbrev HttpKwargs := List (String × String)

abbrev PandasKwargs := List (String × String)

/-- The ambient state an operation of the store can observe or change: the
files on disk (path, content bytes, mtime), the existing directories, the
clock, the origin behaviour of the pluggable HTTP capability, plus two ledgers
recording the GET requests issued through that capability and the URL fetches
delegated to the pandas CSV reader. -/
structure World where
  files : List (String × FileData)
  dirs : List String
  now : Rat
  http : String → HttpKwargs → HttpResponse
  getLog : List (String × HttpKwargs)
  pandasUrlLog : List (String × PandasKwargs)

/-- A real filesystem never holds two entries at one path. -/
def World.wf (w : World) : Prop := (w.files.map Prod.fst).Nodup

/-! ### CacheStore -/

/-- Modelled from the spec: the default cache directory that the external
appdirs library resolves for the application; its concrete value is
irrelevant, only that it is a fixed path. -/
def appdirsUserCacheDir : String := "HOME/.cache/intake-erddap"

structure CacheStore where
  cache_dir : String
  cache_period : Rat

/-- Construction of a CacheStore: resolve the cache directory (defaulting to
the appdirs location), resolve the cache period (defaulting to 500.0 when the
argument is omitted), and create the cache directory with its parents when it
does not exist yet. -/
def CacheStore.init (cache_dir : Option String) (cache_period : Option Rat)
    (w : World) : CacheStore × World :=
  let dir := cache_dir.getD appdirsUserCacheDir
  let period := cache_period.getD 500
  let s : CacheStore := ⟨dir, period⟩
  if dir ∈ w.dirs then (s, w)
  else (s, { w with dirs := ancestors dir ++ w.dirs })

/-- Returns the hash of the URL: the sha256 hexdigest of its UTF-8 bytes. -/
def CacheStore.hash_url (url : String) : String :=
  hexDigest (sha256 (utf8Encode url))

/-- Return the path to the cache file. -/
def CacheStore.cache_file (s : CacheStore) (url : String) : String :=
  s.cache_dir ++ "/" ++ (CacheStore.hash_url url ++ ".gz")

inductive ReadError where
  | httpStatus (url : String) (status : Nat)
  | fileNotFound (path : String)
deriving DecidableEq

/-- The value pandas parses: either straight from a URL it fetches itself, or
from decompressed cache-file bytes; the parse itself is kept symbolic. -/
inductive DataFrame where
  | fromUrl (url : String) (pandas_kwargs : PandasKwargs)
  | fromBytes (content : Bytes) (pandas_kwargs : PandasKwargs)
deriving DecidableEq

/-- A parsed JSON document, kept symbolic as the bytes it was parsed from. -/
inductive JsonValue where
  | parsed (content : Bytes)
deriving DecidableEq

/-- Write the content of the HTTP response to a gzipped cached file.  The
source opens the gzip file for writing before issuing the GET, so the file at
the cache path is truncated (created empty) first; only then is the request
made and its status checked, and on success the response body is written. -/
def CacheStore.cache_response (s : CacheStore) (url : String)
    (http_kwargs : HttpKwargs) (w : World) : World × Option ReadError :=
  let filename := s.cache_file url
  let w1 := { w with files := fsSet w.files filename ⟨[], w.now⟩ }
  let resp := w1.http url http_kwargs
  let w2 := { w1 with getLog := w1.getLog ++ [(url, http_kwargs)] }
  if 400 ≤ resp.status then (w2, some (.httpStatus url resp.status))
  else ({ w2 with files := fsSet w2.files filename ⟨resp.content, w2.now⟩ }, none)

/-- Returns true if the store should use the cache. -/
def CacheStore.cache_enabled (s : CacheStore) : Bool :=
  decide (0 < s.cache_period)

/-- Return a pandas data frame read from source or cache.  With caching
disabled the URL is handed to the pandas reader directly; otherwise a missing
or expired cache file is refetched and the cache file is parsed. -/
def CacheStore.read_csv (s : CacheStore) (url : String)
    (pandas_kwargs : PandasKwargs) (http_kwargs : HttpKwargs) (w : World) :
    World × Except ReadError DataFrame :=
  if s.cache_enabled = false then
    ({ w with pandasUrlLog := w.pandasUrlLog ++ [(url, pandas_kwargs)] },
      .ok (.fromUrl url pandas_kwargs))
  else
    let pth := s.cache_file url
    let allowed_mtime := w.now - s.cache_period
    let step :=
      match fsGet w.files pth with
      | some fd =>
          if fd.mtime < allowed_mtime then s.cache_response url http_kwargs w
          else (w, none)
      | none => s.cache_response url http_kwargs w
    match step with
    | (w1, some e) => (w1, .error e)
    | (w1, none) =>
        match fsGet w1.files pth with
        | some fd => (w1, .ok (.fromBytes fd.content pandas_kwargs))
        | none => (w1, .error (.fileNotFound pth))

/-- Return the parsed JSON object from source or cache.  With caching disabled
the GET is issued through the HTTP capability and the body parsed directly;
otherwise a missing or expired cache file is refetched and the cache file is
parsed. -/
def CacheStore.read_json (s : CacheStore) (url : String)
    (http_kwargs : HttpKwargs) (w : World) :
    World × Except ReadError JsonValue :=
  if s.cache_enabled = false then
    let resp := w.http url http_kwargs
    let w1 := { w with getLog := w.getLog ++ [(url, http_kwargs)] }
    if 400 ≤ resp.status then (w1, .error (.httpStatus url resp.status))
    else (w1, .ok (.parsed resp.content))
  else
    let pth := s.cache_file url
    let allowed_mtime := w.now - s.cache_period
    let step :=
      match fsGet w.files pth with
      | some fd =>
          if fd.mtime < allowed_mtime then s.cache_response url http_kwargs w
          else (w, none)
      | none => s.cache_response url http_kwargs w
    match step with
    | (w1, some e) => (w1, .error e)
    | (w1, none) =>
        match fsGet w1.files pth with
        | some fd => (w1, .ok (.parsed fd.content))
        | none => (w1, .error (.fileNotFound pth))

/-- Whether a direct child of directory d at path p matches the *.gz glob. -/
def globMatchGz (d p : String) : Bool :=
  decide (pathParent p = d) && decide ((pathName p).data.reverse.take 3 = ['z', 'g', '.'])

/-- Removes all cached files. -/
def CacheStore.clearAll (s : CacheStore) (w : World) : World :=
  { w with files := w.files.filter (fun e => !globMatchGz s.cache_dir e.1) }

/-- Removes cached files older than the given age in seconds. -/
def CacheStore.clearMtime (s : CacheStore) (age : Rat) (w : World) : World :=
  let cutoff := w.now - age
  let keep := fun (e : String × FileData) =>
    !(globMatchGz s.cache_dir e.1 && decide (e.2.mtime ≤ cutoff))
  { w with files := w.files.filter keep }

/-- Removes all cached files, or only those older than the given age; a no-op
when the cache directory does not exist. -/
def CacheStore.clear_cache (s : CacheStore) (mtime : Option Rat) (w : World) :
    World :=
  if s.cache_dir ∈ w.dirs then
    match mtime with
    | none => s.clearAll w
    | some m => s.clearMtime m w
  else w

/-! ### Helper lemmas -/

/-- Every character a byte renders to is a lowercase hexadecimal digit. -/
def isLowerHex (c : Char) : Bool := decide (c ∈ hexDigitChars)

def c10WorldFresh : World := ⟨[], [], 0, fun _ _ => ⟨200, []⟩, [], []⟩

def c10WorldExisting : World := ⟨[], ["d"], 0, fun _ _ => ⟨200, []⟩, [], []⟩

def c5World : World :=
  ⟨[("cache/a.gz", ⟨[1], 0⟩)], ["cache"], 100, fun _ _ => ⟨200, []⟩, [], []⟩

def c6World : World :=
  ⟨[("cache/a.gz", ⟨[1], 0⟩), ("cache/notes.txt", ⟨[2], 0⟩)],
    ["cache"], 100, fun _ _ => ⟨200, []⟩, [], []⟩

def c6WorldNoDir : World :=
  ⟨[("cache/a.gz", ⟨[1], 0⟩)], [], 100, fun _ _ => ⟨200, []⟩, [], []⟩

def c1Store : CacheStore := ⟨"cache", 500⟩

def c1World : World :=
  ⟨[(c1Store.cache_file "u", ⟨[1], 0⟩)], ["cache"], 500,
    fun _ _ => ⟨200, [2]⟩, [], []⟩

def c1MissWorld : World := ⟨[], ["cache"], 0, fun _ _ => ⟨200, [5]⟩, [], []⟩

def c2Store : CacheStore := ⟨"cache", 0⟩

def c2World : World := ⟨[], ["cache"], 0, fun _ _ => ⟨500, [9]⟩, [], []⟩

def c2wWorld : World := ⟨[], ["cache"], 0, fun _ _ => ⟨200, [4]⟩, [], []⟩

def c3Store : CacheStore := ⟨"cache", 500⟩

def c3World : World :=
  ⟨[(c3Store.cache_file "u", ⟨[7], 0⟩)], ["cache"], 1000,
    fun _ _ => ⟨500, [9]⟩, [], []⟩

def c4Store : CacheStore := ⟨"cache", 500⟩

def c4World : World := ⟨[], ["cache"], 0, fun _ _ => ⟨404, []⟩, [], []⟩

def c7Store : CacheStore := ⟨"cache", 500⟩

def c7World : World :=
  ⟨[(c7Store.cache_file "u", ⟨[3], 400⟩)], ["cache"], 500,
    fun _ _ => ⟨200, [5]⟩, [], []⟩

/-! ### Theorems -/

/-- FIPS 180-4 test vector: the digest of the empty message. -/
theorem sha256_empty_vector :
    hexDigest (sha256 []) =
      "e3b0c44298fc1c149afbf4c8996fb92427ae41e4649b934ca495991b7852b855" := by
  rfl

/-- FIPS 180-4 test vector: the digest of "abc". -/
theorem sha256_abc_vector :
    hexDigest (sha256 (utf8Encode "abc")) =
      "ba7816bf8f01cfea414140de5dae2223b00361a396177a9cb410ff61f20015ad" := by
  rfl

/-- Test vector for a two-chunk message (length 56 forces a second chunk). -/
theorem sha256_two_chunk_vector :
    hexDigest (sha256 (utf8Encode
      "abcdbcdecdefdefgefghfghighijhijkijkljklmklmnlmnomnopnopq")) =
      "248d6a61d20638b8e5c026930c3e6039a33ce45964ff2167f6ecedd419db06c1" := by
  rfl

theorem hexChar_isLowerHex {n : Nat} (h : n < 16) : isLowerHex (hexChar n) = true := by
  interval_cases n <;> decide

theorem hexChar_ne_slash {n : Nat} (h : n < 16) : hexChar n ≠ '/' := by
  interval_cases n <;> decide

theorem byteToHex_length (b : Nat) : (byteToHex b).length = 2 := rfl

theorem flatMap_byteToHex_length (bs : Bytes) :
    (bs.flatMap byteToHex).length = 2 * bs.length := by
  induction bs with
  | nil => rfl
  | cons b rest ih =>
      simp only [List.flatMap_cons, List.length_append, byteToHex_length, ih,
        List.length_cons]
      ring

theorem beBytes_length (n x : Nat) : (beBytes n x).length = n := by
  simp [beBytes]

theorem sha256_length (msg : Bytes) : (sha256 msg).length = 32 := by
  simp [sha256, stateBytes, beBytes_length]

theorem mem_flatMap_byteToHex {c : Char} {bs : Bytes}
    (h : c ∈ bs.flatMap byteToHex) : ∃ n, n < 16 ∧ c = hexChar n := by
  rw [List.mem_flatMap] at h
  obtain ⟨b, -, hc⟩ := h
  simp only [byteToHex, List.mem_cons, List.not_mem_nil, or_false] at hc
  rcases hc with rfl | rfl
  · exact ⟨b / 16 % 16, Nat.mod_lt _ (by norm_num), rfl⟩
  · exact ⟨b % 16, Nat.mod_lt _ (by norm_num), rfl⟩

theorem fsGet_fsSet (fs : List (String × FileData)) (p : String) (fd : FileData) :
    fsGet (fsSet fs p fd) p = some fd := by
  induction fs with
  | nil => simp [fsSet, fsGet]
  | cons e rest ih =>
      obtain ⟨q, fd0⟩ := e
      by_cases hq : q = p
      · subst hq
        simp [fsSet, fsGet]
      · simp [fsSet, fsGet, hq, ih]

theorem fsGet_eq_none_of_not_mem (fs : List (String × FileData)) (p : String)
    (h : p ∉ fs.map Prod.fst) : fsGet fs p = none := by
  induction fs with
  | nil => rfl
  | cons e rest ih =>
      obtain ⟨q, fd0⟩ := e
      simp only [List.map_cons, List.mem_cons, not_or] at h
      have hq : ¬q = p := fun hqp => h.1 hqp.symm
      simp only [fsGet, if_neg hq]
      exact ih h.2

theorem fsGet_filter (fs : List (String × FileData)) (p : String)
    (f : String × FileData → Bool) (hnd : (fs.map Prod.fst).Nodup) :
    fsGet (fs.filter f) p =
      match fsGet fs p with
      | some fd => if f (p, fd) then some fd else none
      | none => none := by
  induction fs with
  | nil => rfl
  | cons e rest ih =>
      obtain ⟨q, fd0⟩ := e
      simp only [List.map_cons, List.nodup_cons] at hnd
      rw [List.filter_cons]
      by_cases hf : f (q, fd0) = true
      · rw [if_pos hf]
        by_cases hq : q = p
        · subst hq
          simp only [fsGet, if_pos rfl, hf, if_true]
        · simp only [fsGet, if_neg hq]
          exact ih hnd.2
      · rw [if_neg hf]
        by_cases hq : q = p
        · subst hq
          simp only [fsGet, if_pos rfl, hf, if_false, Bool.false_eq_true]
          have hnone : fsGet (rest.filter f) q = none := by
            apply fsGet_eq_none_of_not_mem
            intro hmem
            obtain ⟨x, hx, hxq⟩ := List.mem_map.mp hmem
            exact hnd.1 (List.mem_map.mpr ⟨x, (List.mem_filter.mp hx).1, hxq⟩)
          simp [hnone, hf]
        · simp only [fsGet, if_neg hq]
          exact ih hnd.2

theorem takeWhile_append_of_all {q : Char → Bool} {xs : List Char} (ys : List Char)
    (h : ∀ x ∈ xs, q x = true) : (xs ++ ys).takeWhile q = xs ++ ys.takeWhile q := by
  induction xs with
  | nil => simp
  | cons a rest ih =>
      rw [List.cons_append, List.takeWhile_cons_of_pos (h a (List.mem_cons_self a rest)),
        ih (fun x hx => h x (List.mem_cons_of_mem a hx))]
      rfl

theorem dropWhile_append_of_all {q : Char → Bool} {xs : List Char} (ys : List Char)
    (h : ∀ x ∈ xs, q x = true) : (xs ++ ys).dropWhile q = ys.dropWhile q := by
  induction xs with
  | nil => simp
  | cons a rest ih =>
      rw [List.cons_append, List.dropWhile_cons_of_pos (h a (List.mem_cons_self a rest))]
      exact ih (fun x hx => h x (List.mem_cons_of_mem a hx))

theorem pathParent_join (d name : String) (h : ∀ c ∈ name.data, (c != '/') = true) :
    pathParent (d ++ "/" ++ name) = d := by
  obtain ⟨dl⟩ := d
  obtain ⟨nl⟩ := name
  simp only [pathParent, String.data_append]
  rw [List.reverse_append, List.reverse_append, List.reverse_singleton,
    List.singleton_append]
  rw [dropWhile_append_of_all _ (fun x hx => h x (List.mem_reverse.mp hx))]
  rw [List.dropWhile_cons_of_neg (by decide)]
  simp

theorem pathName_join (d name : String) (h : ∀ c ∈ name.data, (c != '/') = true) :
    pathName (d ++ "/" ++ name) = name := by
  obtain ⟨dl⟩ := d
  obtain ⟨nl⟩ := name
  simp only [pathName, String.data_append]
  rw [List.reverse_append, List.reverse_append, List.reverse_singleton,
    List.singleton_append]
  rw [takeWhile_append_of_all _ (fun x hx => h x (List.mem_reverse.mp hx))]
  rw [List.takeWhile_cons_of_neg (by decide)]
  simp

/-! ### Claim theorems -/

theorem hash_chars_not_slash {c : Char} {url : String}
    (h : c ∈ (CacheStore.hash_url url).data) : (c != '/') = true := by
  obtain ⟨n, hn, rfl⟩ := mem_flatMap_byteToHex h
  have := hexChar_ne_slash hn
  simpa [bne_iff_ne] using this

theorem gz_name_no_slash (url : String) :
    ∀ c ∈ (CacheStore.hash_url url ++ ".gz").data, (c != '/') = true := by
  intro c hc
  rw [String.data_append] at hc
  rcases List.mem_append.mp hc with hmem | hmem
  · exact hash_chars_not_slash hmem
  · have hc3 : c ∈ ['.', 'g', 'z'] := hmem
    simp only [List.mem_cons, List.not_mem_nil, or_false] at hc3
    rcases hc3 with rfl | rfl | rfl <;> decide

/-- C8: hash_url of a URL is precisely the SHA-256 hexdigest of its UTF-8
bytes — 64 lowercase hexadecimal characters — and cache_file is the flat path
cache_dir/hash.gz, whose parent is the cache directory. -/
theorem hash_url_hexdigest_and_cache_file_path (s : CacheStore) (url : String) :
    CacheStore.hash_url url = hexDigest (sha256 (utf8Encode url)) ∧
    (CacheStore.hash_url url).length = 64 ∧
    (CacheStore.hash_url url).data.all isLowerHex = true ∧
    s.cache_file url = s.cache_dir ++ "/" ++ (CacheStore.hash_url url ++ ".gz") ∧
    pathParent (s.cache_file url) = s.cache_dir ∧
    pathName (s.cache_file url) = CacheStore.hash_url url ++ ".gz" := by
  refine ⟨rfl, ?_, ?_, rfl, ?_, ?_⟩
  · show (hexDigest (sha256 (utf8Encode url))).length = 64
    simp only [hexDigest, String.length]
    rw [flatMap_byteToHex_length, sha256_length]
  · rw [List.all_eq_true]
    intro c hc
    obtain ⟨n, hn, rfl⟩ := mem_flatMap_byteToHex hc
    exact hexChar_isLowerHex hn
  · exact pathParent_join _ _ (gz_name_no_slash url)
  · exact pathName_join _ _ (gz_name_no_slash url)

theorem init_fst (cd : Option String) (cp : Option Rat) (w : World) :
    (CacheStore.init cd cp w).1 =
      ⟨cd.getD appdirsUserCacheDir, cp.getD 500⟩ := by
  simp only [CacheStore.init]
  split <;> rfl

/-- C9: an omitted cache_period defaults to 500.0 (caching enabled); an
explicitly supplied cache_period — zero and negatives included — is used
exactly, so an explicit 0 disables caching. -/
theorem init_cache_period_semantics (cd : Option String) (w : World) (p : Rat) :
    (CacheStore.init cd none w).1.cache_period = 500 ∧
    (CacheStore.init cd (some p) w).1.cache_period = p ∧
    (CacheStore.init cd none w).1.cache_enabled = true ∧
    (CacheStore.init cd (some 0) w).1.cache_enabled = false ∧
    (CacheStore.init cd (some p) w).1.cache_enabled = decide (0 < p) := by
  refine ⟨?_, ?_, ?_, ?_, ?_⟩ <;>
    simp [init_fst, CacheStore.cache_enabled, Option.getD]

/-- C10: construction creates the cache directory, with its parents when it
was absent, for every cache_period (caching disabled included); an existing
directory is tolerated and the world is untouched then. -/
theorem init_creates_cache_dir (cd : Option String) (cp : Option Rat) (w : World) :
    (CacheStore.init cd cp w).1.cache_dir ∈ (CacheStore.init cd cp w).2.dirs ∧
    ((CacheStore.init cd cp w).1.cache_dir ∉ w.dirs →
      ∀ a ∈ ancestors (CacheStore.init cd cp w).1.cache_dir,
        a ∈ (CacheStore.init cd cp w).2.dirs) ∧
    ((CacheStore.init cd cp w).1.cache_dir ∈ w.dirs →
      (CacheStore.init cd cp w).2 = w) := by
  unfold CacheStore.init
  by_cases hdir : cd.getD appdirsUserCacheDir ∈ w.dirs
  · rw [if_pos hdir]
    exact ⟨hdir, fun hn => absurd hdir hn, fun _ => rfl⟩
  · rw [if_neg hdir]
    refine ⟨?_, ?_, ?_⟩
    · exact List.mem_append_left _ (by simp [ancestors])
    · intro _ a ha
      exact List.mem_append_left _ ha
    · intro hmem
      exact absurd hmem hdir

/-- Witness for the C10 theorem at concrete inputs. -/
theorem init_creates_cache_dir_witness :
    (∀ a ∈ ancestors (CacheStore.init (some "a/b") (some 0) c10WorldFresh).1.cache_dir,
        a ∈ (CacheStore.init (some "a/b") (some 0) c10WorldFresh).2.dirs) ∧
    (CacheStore.init (some "d") none c10WorldExisting).2 = c10WorldExisting := by
  constructor
  · exact (init_creates_cache_dir (some "a/b") (some 0) c10WorldFresh).2.1 (by decide)
  · exact (init_creates_cache_dir (some "d") none c10WorldExisting).2.2 (by decide)

/-- C5: clear_cache with a non-negative max age deletes exactly the matching
cache files whose age (now minus mtime) is at least that bound — the boundary
age equal to the bound is deleted — and preserves strictly younger ones. -/
theorem clear_cache_mtime_boundary (s : CacheStore) (age : Rat) (w : World)
    (p : String) (fd : FileData)
    (_hage : 0 ≤ age) (hwf : w.wf) (hdir : s.cache_dir ∈ w.dirs)
    (hfile : fsGet w.files p = some fd) (hglob : globMatchGz s.cache_dir p = true) :
    fsGet (s.clear_cache (some age) w).files p =
      (if w.now - fd.mtime < age then some fd else none) := by
  unfold CacheStore.clear_cache
  rw [if_pos hdir]
  show fsGet (s.clearMtime age w).files p = _
  simp only [CacheStore.clearMtime]
  rw [fsGet_filter _ _ _ hwf, hfile]
  by_cases hlt : w.now - fd.mtime < age
  · rw [if_pos hlt]
    have hgt : ¬(fd.mtime ≤ w.now - age) := by
      intro hle
      linarith
    simp [hglob, hgt]
  · rw [if_neg hlt]
    have hle : fd.mtime ≤ w.now - age := by
      push_neg at hlt
      linarith
    simp [hglob, hle]

/-- Witness for the C5 theorem: a file whose age equals the bound is deleted. -/
theorem clear_cache_mtime_boundary_witness :
    fsGet ((CacheStore.mk "cache" 500).clear_cache (some 100) c5World).files
      "cache/a.gz" = none := by
  have h := clear_cache_mtime_boundary (CacheStore.mk "cache" 500) 100 c5World
    "cache/a.gz" ⟨[1], 0⟩ (by norm_num) (by unfold World.wf; decide) (by decide)
    (by decide) (by decide)
  rw [h]
  have hnot : ¬(c5World.now - ((⟨[1], 0⟩ : FileData)).mtime < 100) := by
    norm_num [c5World]
  rw [if_neg hnot]

/-- C6: argumentless clear_cache deletes exactly the files matching the *.gz
glob in the cache directory and leaves every other file; with the cache
directory absent, clear_cache with any argument changes nothing. -/
theorem clear_cache_all_gz_only (s : CacheStore) (w : World) (p : String)
    (m : Option Rat) :
    (s.cache_dir ∈ w.dirs → w.wf →
      fsGet (s.clear_cache none w).files p =
        (if globMatchGz s.cache_dir p = true then none else fsGet w.files p)) ∧
    (s.cache_dir ∉ w.dirs → s.clear_cache m w = w) := by
  constructor
  · intro hdir hwf
    unfold CacheStore.clear_cache
    rw [if_pos hdir]
    show fsGet (s.clearAll w).files p = _
    simp only [CacheStore.clearAll]
    rw [fsGet_filter _ _ _ hwf]
    by_cases hg : globMatchGz s.cache_dir p = true
    · rw [if_pos hg]
      cases hfile : fsGet w.files p <;> simp [hg]
    · rw [if_neg hg]
      cases hfile : fsGet w.files p <;> simp [hg]
  · intro hdir
    unfold CacheStore.clear_cache
    rw [if_neg hdir]

/-- Witness for the C6 theorem: a gz file goes, an unrelated file stays, and
with the directory missing the world is untouched. -/
theorem clear_cache_all_gz_only_witness :
    fsGet ((CacheStore.mk "cache" 500).clear_cache none c6World).files
      "cache/a.gz" = none ∧
    fsGet ((CacheStore.mk "cache" 500).clear_cache none c6World).files
      "cache/notes.txt" = some ⟨[2], 0⟩ ∧
    (CacheStore.mk "cache" 500).clear_cache (some 7) c6WorldNoDir = c6WorldNoDir := by
  refine ⟨?_, ?_, ?_⟩
  · have h := (clear_cache_all_gz_only (CacheStore.mk "cache" 500) c6World
      "cache/a.gz" none).1 (by decide) (by unfold World.wf; decide)
    rw [h]
    decide
  · have h := (clear_cache_all_gz_only (CacheStore.mk "cache" 500) c6World
      "cache/notes.txt" none).1 (by decide) (by unfold World.wf; decide)
    rw [h]
    decide
  · exact (clear_cache_all_gz_only (CacheStore.mk "cache" 500) c6WorldNoDir
      "x" (some 7)).2 (by decide)

/-! ### Branch lemmas for the read paths -/

theorem cache_enabled_true_iff (s : CacheStore) :
    s.cache_enabled = true ↔ 0 < s.cache_period := by
  simp [CacheStore.cache_enabled]

theorem cache_enabled_false_iff (s : CacheStore) :
    s.cache_enabled = false ↔ s.cache_period ≤ 0 := by
  simp [CacheStore.cache_enabled, not_lt]

theorem cache_response_fail (s : CacheStore) (url : String) (hk : HttpKwargs)
    (w : World) (herr : 400 ≤ (w.http url hk).status) :
    s.cache_response url hk w =
      ({ w with
          files := fsSet w.files (s.cache_file url) ⟨[], w.now⟩,
          getLog := w.getLog ++ [(url, hk)] },
        some (.httpStatus url (w.http url hk).status)) := by
  simp only [CacheStore.cache_response]
  rw [if_pos herr]

theorem cache_response_ok (s : CacheStore) (url : String) (hk : HttpKwargs)
    (w : World) (hok : (w.http url hk).status < 400) :
    s.cache_response url hk w =
      ({ w with
          files := fsSet (fsSet w.files (s.cache_file url) ⟨[], w.now⟩)
            (s.cache_file url) ⟨(w.http url hk).content, w.now⟩,
          getLog := w.getLog ++ [(url, hk)] }, none) := by
  simp only [CacheStore.cache_response]
  rw [if_neg (not_le.mpr hok)]

theorem read_csv_disabled (s : CacheStore) (url : String) (pk : PandasKwargs)
    (hk : HttpKwargs) (w : World) (hdis : s.cache_enabled = false) :
    s.read_csv url pk hk w =
      ({ w with pandasUrlLog := w.pandasUrlLog ++ [(url, pk)] },
        .ok (.fromUrl url pk)) := by
  simp only [CacheStore.read_csv]
  rw [if_pos hdis]

theorem read_json_disabled_err (s : CacheStore) (url : String) (hk : HttpKwargs)
    (w : World) (hdis : s.cache_enabled = false)
    (herr : 400 ≤ (w.http url hk).status) :
    s.read_json url hk w =
      ({ w with getLog := w.getLog ++ [(url, hk)] },
        .error (.httpStatus url (w.http url hk).status)) := by
  simp only [CacheStore.read_json]
  rw [if_pos hdis, if_pos herr]

theorem read_json_disabled_ok (s : CacheStore) (url : String) (hk : HttpKwargs)
    (w : World) (hdis : s.cache_enabled = false)
    (hok : (w.http url hk).status < 400) :
    s.read_json url hk w =
      ({ w with getLog := w.getLog ++ [(url, hk)] },
        .ok (.parsed (w.http url hk).content)) := by
  simp only [CacheStore.read_json]
  rw [if_pos hdis, if_neg (not_le.mpr hok)]

theorem read_csv_fresh (s : CacheStore) (url : String) (pk : PandasKwargs)
    (hk : HttpKwargs) (w : World) (fd : FileData)
    (hen : s.cache_enabled = true)
    (hfd : fsGet w.files (s.cache_file url) = some fd)
    (hfresh : ¬(fd.mtime < w.now - s.cache_period)) :
    s.read_csv url pk hk w = (w, .ok (.fromBytes fd.content pk)) := by
  have hcond : ¬(s.cache_enabled = false) := by simp [hen]
  simp only [CacheStore.read_csv]
  rw [if_neg hcond]
  simp only [hfd]
  rw [if_neg hfresh]
  simp [hfd]

theorem read_json_fresh (s : CacheStore) (url : String)
    (hk : HttpKwargs) (w : World) (fd : FileData)
    (hen : s.cache_enabled = true)
    (hfd : fsGet w.files (s.cache_file url) = some fd)
    (hfresh : ¬(fd.mtime < w.now - s.cache_period)) :
    s.read_json url hk w = (w, .ok (.parsed fd.content)) := by
  have hcond : ¬(s.cache_enabled = false) := by simp [hen]
  simp only [CacheStore.read_json]
  rw [if_neg hcond]
  simp only [hfd]
  rw [if_neg hfresh]
  simp [hfd]

theorem read_csv_miss_err (s : CacheStore) (url : String) (pk : PandasKwargs)
    (hk : HttpKwargs) (w : World) (hen : s.cache_enabled = true)
    (hmiss : fsGet w.files (s.cache_file url) = none)
    (herr : 400 ≤ (w.http url hk).status) :
    s.read_csv url pk hk w =
      ({ w with
          files := fsSet w.files (s.cache_file url) ⟨[], w.now⟩,
          getLog := w.getLog ++ [(url, hk)] },
        .error (.httpStatus url (w.http url hk).status)) := by
  have hcond : ¬(s.cache_enabled = false) := by simp [hen]
  simp only [CacheStore.read_csv]
  rw [if_neg hcond]
  simp only [hmiss]
  rw [cache_response_fail s url hk w herr]

theorem read_csv_miss_ok (s : CacheStore) (url : String) (pk : PandasKwargs)
    (hk : HttpKwargs) (w : World) (hen : s.cache_enabled = true)
    (hmiss : fsGet w.files (s.cache_file url) = none)
    (hok : (w.http url hk).status < 400) :
    s.read_csv url pk hk w =
      ({ w with
          files := fsSet (fsSet w.files (s.cache_file url) ⟨[], w.now⟩)
            (s.cache_file url) ⟨(w.http url hk).content, w.now⟩,
          getLog := w.getLog ++ [(url, hk)] },
        .ok (.fromBytes (w.http url hk).content pk)) := by
  have hcond : ¬(s.cache_enabled = false) := by simp [hen]
  simp only [CacheStore.read_csv]
  rw [if_neg hcond]
  simp only [hmiss]
  rw [cache_response_ok s url hk w hok]
  simp [fsGet_fsSet]

theorem read_csv_stale_err (s : CacheStore) (url : String) (pk : PandasKwargs)
    (hk : HttpKwargs) (w : World) (fd : FileData) (hen : s.cache_enabled = true)
    (hfd : fsGet w.files (s.cache_file url) = some fd)
    (hstale : fd.mtime < w.now - s.cache_period)
    (herr : 400 ≤ (w.http url hk).status) :
    s.read_csv url pk hk w =
      ({ w with
          files := fsSet w.files (s.cache_file url) ⟨[], w.now⟩,
          getLog := w.getLog ++ [(url, hk)] },
        .error (.httpStatus url (w.http url hk).status)) := by
  have hcond : ¬(s.cache_enabled = false) := by simp [hen]
  simp only [CacheStore.read_csv]
  rw [if_neg hcond]
  simp only [hfd]
  rw [if_pos hstale, cache_response_fail s url hk w herr]

theorem read_csv_stale_ok (s : CacheStore) (url : String) (pk : PandasKwargs)
    (hk : HttpKwargs) (w : World) (fd : FileData) (hen : s.cache_enabled = true)
    (hfd : fsGet w.files (s.cache_file url) = some fd)
    (hstale : fd.mtime < w.now - s.cache_period)
    (hok : (w.http url hk).status < 400) :
    s.read_csv url pk hk w =
      ({ w with
          files := fsSet (fsSet w.files (s.cache_file url) ⟨[], w.now⟩)
            (s.cache_file url) ⟨(w.http url hk).content, w.now⟩,
          getLog := w.getLog ++ [(url, hk)] },
        .ok (.fromBytes (w.http url hk).content pk)) := by
  have hcond : ¬(s.cache_enabled = false) := by simp [hen]
  simp only [CacheStore.read_csv]
  rw [if_neg hcond]
  simp only [hfd]
  rw [if_pos hstale, cache_response_ok s url hk w hok]
  simp [fsGet_fsSet]

theorem read_json_miss_err (s : CacheStore) (url : String)
    (hk : HttpKwargs) (w : World) (hen : s.cache_enabled = true)
    (hmiss : fsGet w.files (s.cache_file url) = none)
    (herr : 400 ≤ (w.http url hk).status) :
    s.read_json url hk w =
      ({ w with
          files := fsSet w.files (s.cache_file url) ⟨[], w.now⟩,
          getLog := w.getLog ++ [(url, hk)] },
        .error (.httpStatus url (w.http url hk).status)) := by
  have hcond : ¬(s.cache_enabled = false) := by simp [hen]
  simp only [CacheStore.read_json]
  rw [if_neg hcond]
  simp only [hmiss]
  rw [cache_response_fail s url hk w herr]

theorem read_json_miss_ok (s : CacheStore) (url : String)
    (hk : HttpKwargs) (w : World) (hen : s.cache_enabled = true)
    (hmiss : fsGet w.files (s.cache_file url) = none)
    (hok : (w.http url hk).status < 400) :
    s.read_json url hk w =
      ({ w with
          files := fsSet (fsSet w.files (s.cache_file url) ⟨[], w.now⟩)
            (s.cache_file url) ⟨(w.http url hk).content, w.now⟩,
          getLog := w.getLog ++ [(url, hk)] },
        .ok (.parsed (w.http url hk).content)) := by
  have hcond : ¬(s.cache_enabled = false) := by simp [hen]
  simp only [CacheStore.read_json]
  rw [if_neg hcond]
  simp only [hmiss]
  rw [cache_response_ok s url hk w hok]
  simp [fsGet_fsSet]

theorem read_json_stale_err (s : CacheStore) (url : String)
    (hk : HttpKwargs) (w : World) (fd : FileData) (hen : s.cache_enabled = true)
    (hfd : fsGet w.files (s.cache_file url) = some fd)
    (hstale : fd.mtime < w.now - s.cache_period)
    (herr : 400 ≤ (w.http url hk).status) :
    s.read_json url hk w =
      ({ w with
          files := fsSet w.files (s.cache_file url) ⟨[], w.now⟩,
          getLog := w.getLog ++ [(url, hk)] },
        .error (.httpStatus url (w.http url hk).status)) := by
  have hcond : ¬(s.cache_enabled = false) := by simp [hen]
  simp only [CacheStore.read_json]
  rw [if_neg hcond]
  simp only [hfd]
  rw [if_pos hstale, cache_response_fail s url hk w herr]

theorem read_json_stale_ok (s : CacheStore) (url : String)
    (hk : HttpKwargs) (w : World) (fd : FileData) (hen : s.cache_enabled = true)
    (hfd : fsGet w.files (s.cache_file url) = some fd)
    (hstale : fd.mtime < w.now - s.cache_period)
    (hok : (w.http url hk).status < 400) :
    s.read_json url hk w =
      ({ w with
          files := fsSet (fsSet w.files (s.cache_file url) ⟨[], w.now⟩)
            (s.cache_file url) ⟨(w.http url hk).content, w.now⟩,
          getLog := w.getLog ++ [(url, hk)] },
        .ok (.parsed (w.http url hk).content)) := by
  have hcond : ¬(s.cache_enabled = false) := by simp [hen]
  simp only [CacheStore.read_json]
  rw [if_neg hcond]
  simp only [hfd]
  rw [if_pos hstale, cache_response_ok s url hk w hok]
  simp [fsGet_fsSet]

/-- C1 (amended): with caching enabled, read_csv and read_json trigger the
fetch-and-store exactly when the cache file is missing or its age strictly
exceeds the time-to-live; when the file exists with age at most the
time-to-live — the boundary included — no fetch occurs and the existing entry
is served unchanged. -/
theorem read_fetch_iff_strictly_stale (s : CacheStore) (url : String)
    (pk : PandasKwargs) (hk : HttpKwargs) (w : World)
    (hen : s.cache_enabled = true) :
    (fsGet w.files (s.cache_file url) = none →
      (s.read_csv url pk hk w).1.getLog = w.getLog ++ [(url, hk)] ∧
      (s.read_json url hk w).1.getLog = w.getLog ++ [(url, hk)]) ∧
    (∀ fd, fsGet w.files (s.cache_file url) = some fd →
      (s.cache_period < w.now - fd.mtime →
        (s.read_csv url pk hk w).1.getLog = w.getLog ++ [(url, hk)] ∧
        (s.read_json url hk w).1.getLog = w.getLog ++ [(url, hk)]) ∧
      (w.now - fd.mtime ≤ s.cache_period →
        s.read_csv url pk hk w = (w, .ok (.fromBytes fd.content pk)) ∧
        s.read_json url hk w = (w, .ok (.parsed fd.content)))) := by
  constructor
  · intro hmiss
    rcases le_or_lt 400 (w.http url hk).status with herr | hok
    · rw [read_csv_miss_err s url pk hk w hen hmiss herr,
        read_json_miss_err s url hk w hen hmiss herr]
      exact ⟨rfl, rfl⟩
    · rw [read_csv_miss_ok s url pk hk w hen hmiss hok,
        read_json_miss_ok s url hk w hen hmiss hok]
      exact ⟨rfl, rfl⟩
  · intro fd hfd
    constructor
    · intro hage
      have hstale : fd.mtime < w.now - s.cache_period := by linarith
      rcases le_or_lt 400 (w.http url hk).status with herr | hok
      · rw [read_csv_stale_err s url pk hk w fd hen hfd hstale herr,
          read_json_stale_err s url hk w fd hen hfd hstale herr]
        exact ⟨rfl, rfl⟩
      · rw [read_csv_stale_ok s url pk hk w fd hen hfd hstale hok,
          read_json_stale_ok s url hk w fd hen hfd hstale hok]
        exact ⟨rfl, rfl⟩
    · intro hage
      have hfresh : ¬(fd.mtime < w.now - s.cache_period) := by
        intro hlt
        linarith
      exact ⟨read_csv_fresh s url pk hk w fd hen hfd hfresh,
        read_json_fresh s url hk w fd hen hfd hfresh⟩

/-- Counterexample to C1 as stated: the cache file is present with age exactly
equal to the time-to-live, which the claim says triggers a fetch-and-store;
the code performs no GET and serves the existing entry. -/
theorem read_fetch_boundary_counterexample :
    fsGet c1World.files (c1Store.cache_file "u") = some ⟨[1], 0⟩ ∧
    c1World.now - (0 : ℚ) ≥ c1Store.cache_period ∧
    c1Store.read_csv "u" [] [] c1World = (c1World, .ok (.fromBytes [1] [])) ∧
    c1Store.read_json "u" [] c1World = (c1World, .ok (.parsed [1])) := by
  have hen : c1Store.cache_enabled = true :=
    (cache_enabled_true_iff c1Store).mpr (by norm_num [c1Store])
  have hfd : fsGet c1World.files (c1Store.cache_file "u") = some ⟨[1], 0⟩ := by
    simp [c1World, fsGet]
  have hfresh :
      ¬((⟨[1], 0⟩ : FileData).mtime < c1World.now - c1Store.cache_period) := by
    norm_num [c1World, c1Store]
  refine ⟨hfd, by norm_num [c1World, c1Store], ?_, ?_⟩
  · exact read_csv_fresh c1Store "u" [] [] c1World ⟨[1], 0⟩ hen hfd hfresh
  · exact read_json_fresh c1Store "u" [] c1World ⟨[1], 0⟩ hen hfd hfresh

/-- Witness for the C1 theorem: a missing entry forces exactly one fetch. -/
theorem read_fetch_iff_strictly_stale_witness :
    (c1Store.read_csv "u" [] [] c1MissWorld).1.getLog = [("u", [])] ∧
    (c1Store.read_json "u" [] c1MissWorld).1.getLog = [("u", [])] := by
  have hen : c1Store.cache_enabled = true :=
    (cache_enabled_true_iff c1Store).mpr (by norm_num [c1Store])
  have h := (read_fetch_iff_strictly_stale c1Store "u" [] [] c1MissWorld hen).1 rfl
  simpa [c1MissWorld] using h

/-- C2 (amended): with caching disabled neither read touches the filesystem;
read_json issues exactly one GET through the configured HTTP capability with
the supplied request options, raising on non-success status and parsing the
body otherwise; read_csv instead hands the URL to the pandas CSV reader with
the parsing options — no GET through the configured capability, no status
check in the store, request options unused. -/
theorem disabled_cache_read_paths (s : CacheStore) (url : String)
    (pk : PandasKwargs) (hk : HttpKwargs) (w : World)
    (hdis : s.cache_enabled = false) :
    s.read_csv url pk hk w =
      ({ w with pandasUrlLog := w.pandasUrlLog ++ [(url, pk)] },
        .ok (.fromUrl url pk)) ∧
    (s.read_json url hk w).1.files = w.files ∧
    (s.read_json url hk w).1.getLog = w.getLog ++ [(url, hk)] ∧
    (400 ≤ (w.http url hk).status →
      (s.read_json url hk w).2 = .error (.httpStatus url (w.http url hk).status)) ∧
    ((w.http url hk).status < 400 →
      (s.read_json url hk w).2 = .ok (.parsed (w.http url hk).content)) := by
  refine ⟨read_csv_disabled s url pk hk w hdis, ?_, ?_, ?_, ?_⟩
  · rcases le_or_lt 400 (w.http url hk).status with herr | hok
    · rw [read_json_disabled_err s url hk w hdis herr]
    · rw [read_json_disabled_ok s url hk w hdis hok]
  · rcases le_or_lt 400 (w.http url hk).status with herr | hok
    · rw [read_json_disabled_err s url hk w hdis herr]
    · rw [read_json_disabled_ok s url hk w hdis hok]
  · intro herr
    rw [read_json_disabled_err s url hk w hdis herr]
  · intro hok
    rw [read_json_disabled_ok s url hk w hdis hok]

/-- Counterexample to C2 as stated: caching is disabled and every GET through
the configured capability would report status 500, yet read_csv succeeds,
performs no GET through that capability, and leaves the request options
unused. -/
theorem disabled_read_csv_counterexample :
    c2Store.cache_enabled = false ∧
    (c2World.http "u" [("timeout", "60")]).status = 500 ∧
    c2Store.read_csv "u" [] [("timeout", "60")] c2World =
      ({ c2World with pandasUrlLog := [("u", [])] }, .ok (.fromUrl "u" [])) ∧
    (c2Store.read_csv "u" [] [("timeout", "60")] c2World).1.getLog = [] := by
  have hdis : c2Store.cache_enabled = false :=
    (cache_enabled_false_iff c2Store).mpr (by norm_num [c2Store])
  have h := read_csv_disabled c2Store "u" [] [("timeout", "60")] c2World hdis
  refine ⟨hdis, rfl, ?_, ?_⟩
  · rw [h]
    rfl
  · rw [h]
    rfl

/-- Witness for the C2 theorem at concrete inputs. -/
theorem disabled_cache_read_paths_witness :
    c2Store.read_csv "u" [] [] c2wWorld =
      ({ c2wWorld with pandasUrlLog := [("u", [])] }, .ok (.fromUrl "u" [])) ∧
    (c2Store.read_json "u" [] c2wWorld).2 = .ok (.parsed [4]) := by
  have hdis : c2Store.cache_enabled = false :=
    (cache_enabled_false_iff c2Store).mpr (by norm_num [c2Store])
  have h := disabled_cache_read_paths c2Store "u" [] [] c2wWorld hdis
  constructor
  · rw [h.1]
    rfl
  · exact h.2.2.2.2 (by norm_num [c2wWorld])

/-- C3 (amended): a failing fetch-and-store does not leave the prior contents
intact: cache_response opens the gzip cache file for writing before issuing
the GET, so after the raised error the file exists truncated — empty content,
mtime the current time — and the prior bytes are gone. -/
theorem cache_response_failure_truncates (s : CacheStore) (url : String)
    (hk : HttpKwargs) (w : World) (e : ReadError)
    (herr : (s.cache_response url hk w).2 = some e) :
    fsGet (s.cache_response url hk w).1.files (s.cache_file url) =
      some ⟨[], w.now⟩ := by
  rcases le_or_lt 400 (w.http url hk).status with hst | hst
  · rw [cache_response_fail s url hk w hst]
    exact fsGet_fsSet w.files (s.cache_file url) ⟨[], w.now⟩
  · rw [cache_response_ok s url hk w hst] at herr
    simp at herr

/-- Counterexample to C3 as stated: the cache file holds bytes before the
failing fetch, the fetch raises on status 500, and afterwards the file holds
empty content under a new mtime — the prior content did not remain. -/
theorem cache_write_atomicity_counterexample :
    fsGet c3World.files (c3Store.cache_file "u") = some ⟨[7], 0⟩ ∧
    (c3Store.cache_response "u" [] c3World).2 = some (.httpStatus "u" 500) ∧
    fsGet (c3Store.cache_response "u" [] c3World).1.files
      (c3Store.cache_file "u") = some ⟨[], 1000⟩ := by
  have hst : 400 ≤ (c3World.http "u" []).status := by norm_num [c3World]
  refine ⟨by simp [c3World, fsGet], ?_, ?_⟩
  · rw [cache_response_fail c3Store "u" [] c3World hst]
    rfl
  · rw [cache_response_fail c3Store "u" [] c3World hst]
    exact fsGet_fsSet c3World.files (c3Store.cache_file "u") ⟨[], c3World.now⟩

/-- Witness for the C3 theorem at concrete inputs. -/
theorem cache_response_failure_truncates_witness :
    fsGet (c3Store.cache_response "v" [] c3World).1.files
      (c3Store.cache_file "v") = some ⟨[], 1000⟩ := by
  have herr : (c3Store.cache_response "v" [] c3World).2 =
      some (.httpStatus "v" 500) := by
    rw [cache_response_fail c3Store "v" [] c3World (by norm_num [c3World])]
    rfl
  exact cache_response_failure_truncates c3Store "v" [] c3World
    (.httpStatus "v" 500) herr

/-- C4: evaluating the code at the failing input of the repository's own
error-propagation test: the first read_csv of a missing entry raises the 404
error but leaves a freshly truncated cache file behind, so the second
identical call performs no GET (the request log still holds a single entry)
and returns parsed empty bytes instead of raising the HTTP error again. -/
theorem http_error_not_retried_divergence :
    c4Store.read_csv "u" [] [] c4World =
      ({ c4World with
          files := [(c4Store.cache_file "u", ⟨[], 0⟩)],
          getLog := [("u", [])] },
        .error (.httpStatus "u" 404)) ∧
    c4Store.read_csv "u" [] [] (c4Store.read_csv "u" [] [] c4World).1 =
      ((c4Store.read_csv "u" [] [] c4World).1, .ok (.fromBytes [] [])) := by
  have hen : c4Store.cache_enabled = true :=
    (cache_enabled_true_iff c4Store).mpr (by norm_num [c4Store])
  have herr : 400 ≤ (c4World.http "u" []).status := by norm_num [c4World]
  have h1 := read_csv_miss_err c4Store "u" [] [] c4World hen rfl herr
  constructor
  · rw [h1]
    rfl
  · rw [h1]
    exact read_csv_fresh c4Store "u" [] [] _ ⟨[], 0⟩ hen
      (fsGet_fsSet c4World.files (c4Store.cache_file "u") ⟨[], c4World.now⟩)
      (by norm_num [c4Store, c4World])

/-- C7: within the time-to-live window a read performs no HTTP GET — the
world, request log included, is unchanged — and returns the parse of whatever
content the on-disk cache file currently holds. -/
theorem warm_cache_hit (s : CacheStore) (url : String) (pk : PandasKwargs)
    (hk : HttpKwargs) (w : World) (fd : FileData)
    (hen : s.cache_enabled = true)
    (hfd : fsGet w.files (s.cache_file url) = some fd)
    (hfresh : w.now - fd.mtime ≤ s.cache_period) :
    s.read_csv url pk hk w = (w, .ok (.fromBytes fd.content pk)) ∧
    s.read_json url hk w = (w, .ok (.parsed fd.content)) := by
  have hf : ¬(fd.mtime < w.now - s.cache_period) := fun hlt => by linarith
  exact ⟨read_csv_fresh s url pk hk w fd hen hfd hf,
    read_json_fresh s url hk w fd hen hfd hf⟩

/-- Witness for the C7 theorem: the on-disk entry was re-seeded with content
different from what the origin would serve, and the stale-free read returns
the on-disk bytes without any GET. -/
theorem warm_cache_hit_witness :
    c7Store.read_csv "u" [] [] c7World = (c7World, .ok (.fromBytes [3] [])) ∧
    c7Store.read_json "u" [] c7World = (c7World, .ok (.parsed [3])) := by
  exact warm_cache_hit c7Store "u" [] [] c7World ⟨[3], 400⟩
    ((cache_enabled_true_iff c7Store).mpr (by norm_num [c7Store]))
    (by simp [c7World, fsGet])
    (by norm_num [c7World, c7Store])

